import Mathlib

/-!
Verification of the measurement core of `src/main.js` (spoke tension meter).

The source's numeric computations are embedded over exact arithmetic:
audio amplitudes and configuration values become rationals, and the
tension formula (which multiplies by `Math.PI`) lives over the reals.
The measure-button click handler is decomposed into the zero-crossing
frequency estimator (`getFrequency`), the sampling/aggregation loop
(collection filter, trimmed mean, population variance), the clamping of
the duration and calibration inputs, the insufficient-signal branch, and
a resource-state model of microphone acquisition and release.
-/

namespace SpokeTension

/-- Adjacent-pair test of the zero-crossing loop in `getFrequency`:
`(dataArray[i-1] < 0 && dataArray[i] >= 0) || (dataArray[i-1] > 0 && dataArray[i] <= 0)`. -/
def isCrossing (a b : ℚ) : Bool :=
  decide ((a < 0 ∧ 0 ≤ b) ∨ (0 < a ∧ b ≤ 0))

/-- The crossing counter of `getFrequency`: the loop over `i` in `[1, bufferLength)`
testing the adjacent pair `(dataArray[i-1], dataArray[i])`. -/
def crossings : List ℚ → ℕ
  | a :: b :: rest => (if isCrossing a b then 1 else 0) + crossings (b :: rest)
  | _ => 0

/-- `getFrequency`: returns `crossings * audioContext.sampleRate / (2 * bufferLength)`. -/
def getFrequency (buf : List ℚ) (sampleRate : ℚ) : ℚ :=
  (crossings buf : ℚ) * sampleRate / (2 * (buf.length : ℚ))

/-- The retention test of the aggregation loop and of the `good` filter:
`f && isFinite(f) && f > 20 && f < 10000`.  In exact rational arithmetic
`isFinite` is always true, and JS truthiness of a non-NaN number is `f ≠ 0`. -/
def isValidReading (f : ℚ) : Bool :=
  decide (f ≠ 0) && decide (20 < f) && decide (f < 10000)

/-- One iteration of the sampling loop body:
`if (f && isFinite(f) && f > 20 && f < 10000) samples.push(f)`. -/
def collectStep (acc : List ℚ) (f : ℚ) : List ℚ :=
  if isValidReading f then acc ++ [f] else acc

/-- The sampling loop: fold the per-iteration estimator outputs into `samples`. -/
def collectSamples (fs : List ℚ) : List ℚ :=
  fs.foldl collectStep []

/-- `Math.min(Math.max(x, lo), hi)`, the clamping applied to the duration and
calibration inputs. -/
def clampQ (x lo hi : ℚ) : ℚ := min (max x lo) hi

/-- `iterations = Math.floor((duration * 1000) / interval)` with `interval = 100`,
where `duration` is the raw input clamped to `[0.5, 10]`. -/
def iterationsOf (durationRaw : ℚ) : ℕ :=
  ⌊clampQ durationRaw (1/2) 10 * 1000 / 100⌋₊

/-- The per-iteration estimator outputs consumed by one session: one call of
`getFrequency()` per loop iteration, supplied here as an abstract stream. -/
def sessionEstimates (durationRaw : ℚ) (est : ℕ → ℚ) : List ℚ :=
  (List.range (iterationsOf durationRaw)).map est

/-- `good = samples.filter(f => f && isFinite(f) && f > 20 && f < 10000)`. -/
def goodOf (durationRaw : ℚ) (est : ℕ → ℚ) : List ℚ :=
  (collectSamples (sessionEstimates durationRaw est)).filter isValidReading

/-- `trim = Math.floor(good.length * 0.15)`. -/
def trimCount (n : ℕ) : ℕ := ⌊(n : ℚ) * (15 / 100)⌋₊

/-- `good.sort((a, b) => a - b)`: ascending sort. -/
def sortAsc (l : List ℚ) : List ℚ := List.insertionSort (· ≤ ·) l

/-- `good.slice(trim, good.length - trim || undefined)`: when
`good.length - trim` is `0` (falsy) the slice keeps the whole tail from
`trim`; otherwise it keeps indices `[trim, good.length - trim)`. -/
def sliceTrim (l : List ℚ) : List ℚ :=
  if l.length - trimCount l.length = 0 then l.drop (trimCount l.length)
  else (l.take (l.length - trimCount l.length)).drop (trimCount l.length)

/-- `trimmed.reduce((a, b) => a + b, 0) / trimmed.length`. -/
def meanQ (l : List ℚ) : ℚ := l.sum / (l.length : ℚ)

/-- `trimmed.reduce((a, x) => a + (x - freq) ** 2, 0) / trimmed.length`,
the population variance about the trimmed mean. -/
def varQ (l : List ℚ) : ℚ :=
  (l.map (fun x => (x - meanQ l) ^ 2)).sum / (l.length : ℚ)

/-- Modelled from the spec for refinement comparison only: "drop the bottom
`trim` and top `trim` entries" of the sorted list, as §4.2 words the
symmetric trimmed mean.  Compared against the source's `sliceTrim`. -/
def specTrimmed (l : List ℚ) : List ℚ :=
  (l.drop (trimCount l.length)).take (l.length - 2 * trimCount l.length)

/-- The frequency-level result of one successful measurement session:
representative frequency, population variance of the trimmed subset, and
the accepted sample count displayed as `samples`. -/
structure AggResult where
  freq : ℚ
  varianceQ : ℚ
  sampleCount : ℕ
deriving DecidableEq

/-- The statistics block of the click handler: sort, trim, mean, variance. -/
def aggregate (good : List ℚ) : AggResult :=
  ⟨meanQ (sliceTrim (sortAsc good)), varQ (sliceTrim (sortAsc good)), good.length⟩

/-- The post-collection branch: `if (good.length < 3) { ...no signal... return; }`
else compute the statistics. -/
def runSession (durationRaw : ℚ) (est : ℕ → ℚ) : Option AggResult :=
  if (goodOf durationRaw est).length < 3 then none
  else some (aggregate (goodOf durationRaw est))

/-- `area = Math.PI * (diameter / 2) ** 2`. -/
noncomputable def area (diameter : ℝ) : ℝ := Real.pi * (diameter / 2) ^ 2

/-- `tensionN = materialDensity * area * Math.pow(2 * length * freq, 2) * calibration`. -/
noncomputable def tensionN (density diameter length freq calibration : ℝ) : ℝ :=
  density * area diameter * (2 * length * freq) ^ 2 * calibration

/-- `tensionKgf = tensionN / 9.80665`. -/
noncomputable def tensionKgf (density diameter length freq calibration : ℝ) : ℝ :=
  tensionN density diameter length freq calibration / 9.80665

/-- `stdev = Math.sqrt(variance)`. -/
noncomputable def stdevOf (l : List ℚ) : ℝ := Real.sqrt ((varQ l : ℝ))

/-- The tension the session computes from the trimmed mean frequency: the
length and diameter inputs are in millimetres and divided by 1000, and the
calibration used is the clamped value. -/
noncomputable def sessionTension (durationRaw calibRaw density lengthMm diameterMm : ℚ)
    (est : ℕ → ℚ) : Option ℝ :=
  (runSession durationRaw est).map fun r =>
    tensionN (density : ℝ) ((diameterMm : ℝ) / 1000) ((lengthMm : ℝ) / 1000)
      (r.freq : ℝ) ((clampQ calibRaw (1/2) 2 : ℚ) : ℝ)

/-! ## Helper lemmas -/

theorem crossings_le : ∀ buf : List ℚ, crossings buf ≤ buf.length - 1
  | [] => by simp [crossings]
  | [_] => by simp [crossings]
  | a :: b :: rest => by
      have ih := crossings_le (b :: rest)
      have hone : (if isCrossing a b then 1 else 0) ≤ 1 := by split <;> simp
      simp only [crossings, List.length_cons] at *
      omega

/-! ## C1: the zero-crossing formula -/

/-- C1: for every sample buffer and sampling rate, `getFrequency` returns
`C * sampleRate / (2 * bufferLength)` where `C` is the adjacent-pair
crossing count; in particular a buffer with exactly `2 * k` crossings over
a positive length `L` at rate `R` yields the estimate `k * R / L`. -/
theorem getFrequency_formula (buf : List ℚ) (rate : ℚ) :
    getFrequency buf rate = (crossings buf : ℚ) * rate / (2 * (buf.length : ℚ)) ∧
    ∀ k : ℕ, crossings buf = 2 * k → 0 < buf.length →
      getFrequency buf rate = (k : ℚ) * rate / (buf.length : ℚ) := by
  refine ⟨rfl, fun k hk hlen => ?_⟩
  have hn : ((buf.length : ℚ)) ≠ 0 := by
    exact_mod_cast Nat.pos_iff_ne_zero.mp hlen
  unfold getFrequency
  rw [hk]
  push_cast
  field_simp
  ring

/-- Witness for C1 at the concrete buffer `[1, -1, 1, -1, 1]` (4 = 2·2
crossings over length 5) and rate 44100. -/
theorem getFrequency_formula_witness :
    getFrequency [1, -1, 1, -1, 1] 44100 =
      ((2 : ℕ) : ℚ) * 44100 / (([1, -1, 1, -1, 1] : List ℚ).length : ℚ) :=
  (getFrequency_formula [1, -1, 1, -1, 1] 44100).2 2 (by decide) (by decide)

/-! ## C9: estimator range invariant -/

/-- C9: for every buffer of length at least 1 and every positive sampling
rate, the crossing count is at most `bufferLength - 1`, so the estimate is
nonnegative and strictly below the Nyquist frequency `sampleRate / 2`. -/
theorem getFrequency_range (buf : List ℚ) (rate : ℚ)
    (hlen : 1 ≤ buf.length) (hrate : 0 < rate) :
    crossings buf ≤ buf.length - 1 ∧
    0 ≤ getFrequency buf rate ∧ getFrequency buf rate < rate / 2 := by
  have hcle := crossings_le buf
  have hn : (0 : ℚ) < (buf.length : ℚ) := by exact_mod_cast hlen
  have hc : (crossings buf : ℚ) < (buf.length : ℚ) := by
    exact_mod_cast lt_of_le_of_lt hcle (by omega)
  refine ⟨hcle, ?_, ?_⟩
  · unfold getFrequency
    apply div_nonneg (mul_nonneg (Nat.cast_nonneg _) hrate.le)
    positivity
  · unfold getFrequency
    rw [div_lt_div_iff₀ (by positivity) (by norm_num)]
    nlinarith [mul_lt_mul_of_pos_left hc hrate]

/-- Witness for C9 at the concrete buffer `[1, -1, 1]` and rate 2. -/
theorem getFrequency_range_witness :
    crossings [1, -1, 1] ≤ ([1, -1, 1] : List ℚ).length - 1 ∧
    0 ≤ getFrequency [1, -1, 1] 2 ∧ getFrequency [1, -1, 1] 2 < 2 / 2 :=
  getFrequency_range [1, -1, 1] 2 (by decide) (by norm_num)

/-! ## C7: degenerate buffers -/

theorem crossings_same_sign : ∀ buf : List ℚ,
    ((∀ x ∈ buf, 0 < x) ∨ (∀ x ∈ buf, x < 0) ∨ (∀ x ∈ buf, x = 0)) →
    crossings buf = 0
  | [], _ => rfl
  | [_], _ => rfl
  | a :: b :: rest, h => by
      have hab : isCrossing a b = false := by
        apply decide_eq_false
        rcases h with h | h | h <;>
          (have ha := h a (by simp); have hb := h b (by simp);
            rintro (⟨h1, h2⟩ | ⟨h1, h2⟩) <;> linarith)
      have ih := crossings_same_sign (b :: rest) (by
        rcases h with h | h | h
        · exact Or.inl fun x hx => h x (List.mem_cons_of_mem a hx)
        · exact Or.inr (Or.inl fun x hx => h x (List.mem_cons_of_mem a hx))
        · exact Or.inr (Or.inr fun x hx => h x (List.mem_cons_of_mem a hx)))
      simp [crossings, hab, ih]

/-- C7: a buffer whose samples all have one sign (all positive, all
negative, or all zero) has no crossings, so `getFrequency` returns 0, and
the loop's range filter rejects that 0 reading: the collection step leaves
the Reading Set unchanged. -/
theorem degenerate_buffer (buf : List ℚ) (rate : ℚ)
    (h : (∀ x ∈ buf, 0 < x) ∨ (∀ x ∈ buf, x < 0) ∨ (∀ x ∈ buf, x = 0)) :
    getFrequency buf rate = 0 ∧
    isValidReading (getFrequency buf rate) = false ∧
    ∀ acc : List ℚ, collectStep acc (getFrequency buf rate) = acc := by
  have hz : getFrequency buf rate = 0 := by
    unfold getFrequency
    rw [crossings_same_sign buf h]
    simp
  refine ⟨hz, ?_, ?_⟩
  · rw [hz]; decide
  · intro acc
    rw [hz]
    simp [collectStep, isValidReading]

/-- Witness for C7 at the all-zero buffer `[0, 0, 0]`, rate 44100, and the
concrete Reading Set `[440]`. -/
theorem degenerate_buffer_witness :
    getFrequency [0, 0, 0] 44100 = 0 ∧
    collectStep [440] (getFrequency [0, 0, 0] 44100) = [440] :=
  ⟨(degenerate_buffer [0, 0, 0] 44100 (Or.inr (Or.inr (by decide)))).1,
   (degenerate_buffer [0, 0, 0] 44100 (Or.inr (Or.inr (by decide)))).2.2 [440]⟩

/-! ## C6: Reading Set invariant -/

theorem foldl_collectStep (fs : List ℚ) :
    ∀ acc : List ℚ, fs.foldl collectStep acc = acc ++ fs.filter isValidReading := by
  induction fs with
  | nil => intro acc; simp
  | cons a fs ih =>
      intro acc
      rw [List.foldl_cons, ih (collectStep acc a), List.filter_cons]
      unfold collectStep
      cases h : isValidReading a <;> simp [h]

theorem collectSamples_eq_filter (fs : List ℚ) :
    collectSamples fs = fs.filter isValidReading := by
  unfold collectSamples
  rw [foldl_collectStep]
  simp

/-- C6: every reading retained in the Reading Set is nonzero (finite is
automatic in exact arithmetic) and strictly within `(20, 10000)`; the loop
body appends exactly when the reading satisfies the filter, so the
invariant holds after any prefix of the iterations and after collection. -/
theorem reading_set_invariant (fs : List ℚ) (k : ℕ) (f : ℚ) :
    (f ∈ collectSamples fs → f ≠ 0 ∧ 20 < f ∧ f < 10000) ∧
    (f ∈ collectSamples (fs.take k) → f ≠ 0 ∧ 20 < f ∧ f < 10000) ∧
    (∀ acc : List ℚ,
      collectStep acc f = if 20 < f ∧ f < 10000 then acc ++ [f] else acc) := by
  have hmem : ∀ gs : List ℚ, f ∈ collectSamples gs → f ≠ 0 ∧ 20 < f ∧ f < 10000 := by
    intro gs hf
    rw [collectSamples_eq_filter] at hf
    have := List.of_mem_filter hf
    simpa [isValidReading, and_assoc] using this
  refine ⟨hmem fs, hmem (fs.take k), fun acc => ?_⟩
  unfold collectStep isValidReading
  by_cases h1 : 20 < f
  · have hf0 : f ≠ 0 := by intro h; rw [h] at h1; exact absurd h1 (by norm_num)
    by_cases h2 : f < 10000 <;> simp [h1, h2, hf0]
  · simp [h1]

/-- Witness for C6: `440` is in the Reading Set collected from
`[440, 5, 30]`, hence nonzero and within range. -/
theorem reading_set_invariant_witness :
    (440 : ℚ) ≠ 0 ∧ (20 : ℚ) < 440 ∧ (440 : ℚ) < 10000 :=
  (reading_set_invariant [440, 5, 30] 2 440).1 (by decide)

/-! ## Trimming arithmetic -/

theorem trimCount_eq (n : ℕ) : trimCount n = 15 * n / 100 := by
  unfold trimCount
  rw [show ((n : ℚ) * (15 / 100)) = (((15 * n : ℕ) : ℚ)) / ((100 : ℕ) : ℚ) by
    push_cast; ring]
  rw [Nat.floor_div_nat, Nat.floor_natCast]

theorem two_trim_lt (n : ℕ) (h : 1 ≤ n) : 2 * trimCount n < n := by
  rw [trimCount_eq]
  have h2 : 15 * n / 100 * 100 ≤ 15 * n := Nat.div_mul_le_self (15 * n) 100
  omega

theorem sortAsc_length (l : List ℚ) : (sortAsc l).length = l.length :=
  (List.perm_insertionSort (· ≤ ·) l).length_eq

theorem sliceTrim_length (l : List ℚ) (h : 1 ≤ l.length) :
    (sliceTrim l).length = l.length - 2 * trimCount l.length := by
  have ht := two_trim_lt l.length h
  unfold sliceTrim
  rw [if_neg (by omega)]
  rw [List.length_drop, List.length_take]
  omega

theorem sliceTrim_eq_specTrimmed (l : List ℚ) (h : 1 ≤ l.length) :
    sliceTrim l = specTrimmed l := by
  have ht := two_trim_lt l.length h
  unfold sliceTrim specTrimmed
  rw [if_neg (by omega)]
  rw [List.drop_take]
  congr 1
  omega

/-! ## C10: the trim count never exhausts the set -/

/-- C10: for a Reading Set of at least 3 readings, `trim = floor(N * 0.15)`
satisfies `2 * trim < N`, so `N - trim` is nonzero (the untrimmed-tail
fallback of the slice is never taken) and the trimmed subset is nonempty,
making the divisions by its length divisions by a positive count. -/
theorem trim_safe (l : List ℚ) (h : 3 ≤ l.length) :
    2 * trimCount l.length < l.length ∧
    l.length - trimCount l.length ≠ 0 ∧
    (sliceTrim (sortAsc l)).length = l.length - 2 * trimCount l.length ∧
    0 < (sliceTrim (sortAsc l)).length := by
  have ht := two_trim_lt l.length (by omega)
  have hs := sortAsc_length l
  have hlen : (sliceTrim (sortAsc l)).length = l.length - 2 * trimCount l.length := by
    rw [sliceTrim_length (sortAsc l) (by omega), hs]
  exact ⟨ht, by omega, hlen, by omega⟩

/-- Witness for C10 at the concrete Reading Set `[1, 2, 3]`. -/
theorem trim_safe_witness :
    2 * trimCount ([1, 2, 3] : List ℚ).length < ([1, 2, 3] : List ℚ).length ∧
    ([1, 2, 3] : List ℚ).length - trimCount ([1, 2, 3] : List ℚ).length ≠ 0 ∧
    (sliceTrim (sortAsc [1, 2, 3])).length =
      ([1, 2, 3] : List ℚ).length - 2 * trimCount ([1, 2, 3] : List ℚ).length ∧
    0 < (sliceTrim (sortAsc [1, 2, 3])).length :=
  trim_safe [1, 2, 3] (by decide)

/-! ## C2: trimmed-mean aggregation -/

/-- C2: the aggregation sorts ascending (a sorted permutation of the
Reading Set), trims `floor(N * 0.15)` from each end — the source's slice
agrees with the spec's symmetric drop for N ≥ 3 — and reports the mean and
population variance of the trimmed subset, the standard deviation being
the square root of that variance; for the ten readings `[100, ..., 109]`
the trimmed subset is `[101, ..., 108]` and the mean is `104.5`. -/
theorem trimmed_mean_aggregation (good : List ℚ) (h : 3 ≤ good.length) :
    List.Sorted (· ≤ ·) (sortAsc good) ∧
    (sortAsc good).Perm good ∧
    sliceTrim (sortAsc good) = specTrimmed (sortAsc good) ∧
    (aggregate good).freq = meanQ (specTrimmed (sortAsc good)) ∧
    (aggregate good).varianceQ = varQ (specTrimmed (sortAsc good)) ∧
    stdevOf (sliceTrim (sortAsc good)) =
      Real.sqrt (((aggregate good).varianceQ : ℝ)) ∧
    trimCount 10 = 1 ∧
    sliceTrim (sortAsc [100, 101, 102, 103, 104, 105, 106, 107, 108, 109]) =
      [101, 102, 103, 104, 105, 106, 107, 108] ∧
    (aggregate [100, 101, 102, 103, 104, 105, 106, 107, 108, 109]).freq = 104.5 := by
  have hlen : 1 ≤ (sortAsc good).length := by rw [sortAsc_length]; omega
  have heq := sliceTrim_eq_specTrimmed (sortAsc good) hlen
  have hsort : sortAsc [100, 101, 102, 103, 104, 105, 106, 107, 108, 109] =
      [100, 101, 102, 103, 104, 105, 106, 107, 108, 109] := by decide
  have hslice : sliceTrim (sortAsc [100, 101, 102, 103, 104, 105, 106, 107, 108, 109]) =
      [101, 102, 103, 104, 105, 106, 107, 108] := by
    rw [hsort]
    simp only [sliceTrim, trimCount_eq]
    decide
  refine ⟨List.sorted_insertionSort (· ≤ ·) good, List.perm_insertionSort (· ≤ ·) good,
    heq, ?_, ?_, rfl, ?_, hslice, ?_⟩
  · unfold aggregate; rw [heq]
  · unfold aggregate; rw [heq]
  · rw [trimCount_eq]
  · show meanQ (sliceTrim (sortAsc [100, 101, 102, 103, 104, 105, 106, 107, 108, 109])) = _
    rw [hslice]
    norm_num [meanQ, List.sum_cons, List.sum_nil]

/-- Witness for C2 at the ten-element Reading Set `[100, ..., 109]`. -/
theorem trimmed_mean_aggregation_witness :
    (aggregate [100, 101, 102, 103, 104, 105, 106, 107, 108, 109]).freq =
      meanQ (specTrimmed (sortAsc [100, 101, 102, 103, 104, 105, 106, 107, 108, 109])) :=
  (trimmed_mean_aggregation [100, 101, 102, 103, 104, 105, 106, 107, 108, 109]
    (by decide)).2.2.2.1

/-! ## C4: the insufficient-signal threshold -/

theorem clampQ_three : clampQ 3 (1/2) 10 = 3 := by
  unfold clampQ
  rw [max_eq_left (by norm_num), min_eq_left (by norm_num)]

theorem iterationsOf_three : iterationsOf 3 = 30 := by
  unfold iterationsOf
  rw [clampQ_three, show (3 : ℚ) * 1000 / 100 = ((30 : ℕ) : ℚ) by norm_num,
    Nat.floor_natCast]

/-- C4: a session ends with no result exactly when fewer than 3 valid
readings were collected (then no tension is computed either), and a
session with 3 or more valid readings produces a result; the threshold is
strictly "fewer than 3". -/
theorem insufficient_signal_threshold (dur c ρ L D : ℚ) (est : ℕ → ℚ) :
    (runSession dur est = none ↔ (goodOf dur est).length < 3) ∧
    (sessionTension dur c ρ L D est = none ↔ (goodOf dur est).length < 3) ∧
    ((runSession dur est).isSome = true ↔ 3 ≤ (goodOf dur est).length) := by
  unfold sessionTension runSession
  by_cases h : (goodOf dur est).length < 3 <;> simp [h]
  omega

/-- Witness for C4: with a 3-second session, a stream yielding exactly 3
valid readings succeeds and a stream yielding exactly 2 fails. -/
theorem insufficient_signal_threshold_witness :
    (runSession 3 (fun i => if i < 3 then (440 : ℚ) else 0)).isSome = true ∧
    runSession 3 (fun i => if i < 2 then (440 : ℚ) else 0) = none :=
  ⟨(insufficient_signal_threshold 3 1 7850 300 2 (fun i => if i < 3 then 440 else 0)).2.2.mpr
      (by unfold goodOf sessionEstimates; rw [iterationsOf_three]; decide),
   (insufficient_signal_threshold 3 1 7850 300 2 (fun i => if i < 2 then 440 else 0)).1.mpr
      (by unfold goodOf sessionEstimates; rw [iterationsOf_three]; decide)⟩

/-! ## C5: clamping of duration and calibration -/

theorem clampQ_spec (x lo hi : ℚ) (h : lo ≤ hi) :
    lo ≤ clampQ x lo hi ∧ clampQ x lo hi ≤ hi ∧
    (x < lo → clampQ x lo hi = lo) ∧ (hi < x → clampQ x lo hi = hi) ∧
    (lo ≤ x → x ≤ hi → clampQ x lo hi = x) := by
  unfold clampQ
  refine ⟨le_min (le_max_right x lo) h, min_le_right _ _, ?_, ?_, ?_⟩
  · intro hx
    rw [max_eq_right hx.le, min_eq_left h]
  · intro hx
    rw [max_eq_left (h.trans hx.le), min_eq_right hx.le]
  · intro h1 h2
    rw [max_eq_left h1, min_eq_left h2]

/-- C5: a duration outside `[0.5, 10]` and a calibration outside `[0.5, 2]`
are clamped to the nearest bound (and in-range values pass through), and
the clamped duration is what drives the iteration count while the clamped
calibration is what enters the tension formula. -/
theorem clamp_inputs (d c : ℚ) :
    (1/2 ≤ clampQ d (1/2) 10 ∧ clampQ d (1/2) 10 ≤ 10) ∧
    (d < 1/2 → clampQ d (1/2) 10 = 1/2) ∧
    (10 < d → clampQ d (1/2) 10 = 10) ∧
    (1/2 ≤ d → d ≤ 10 → clampQ d (1/2) 10 = d) ∧
    (1/2 ≤ clampQ c (1/2) 2 ∧ clampQ c (1/2) 2 ≤ 2) ∧
    (c < 1/2 → clampQ c (1/2) 2 = 1/2) ∧
    (2 < c → clampQ c (1/2) 2 = 2) ∧
    (1/2 ≤ c → c ≤ 2 → clampQ c (1/2) 2 = c) ∧
    iterationsOf d = ⌊clampQ d (1/2) 10 * 1000 / 100⌋₊ ∧
    ∀ ρ L D est, sessionTension d c ρ L D est =
      (runSession d est).map fun r =>
        tensionN (ρ : ℝ) ((D : ℝ) / 1000) ((L : ℝ) / 1000) (r.freq : ℝ)
          ((clampQ c (1/2) 2 : ℚ) : ℝ) := by
  obtain ⟨hd1, hd2, hd3, hd4, hd5⟩ := clampQ_spec d (1/2) 10 (by norm_num)
  obtain ⟨hc1, hc2, hc3, hc4, hc5⟩ := clampQ_spec c (1/2) 2 (by norm_num)
  exact ⟨⟨hd1, hd2⟩, hd3, hd4, hd5, ⟨hc1, hc2⟩, hc3, hc4, hc5, rfl, fun _ _ _ _ => rfl⟩

/-- Witness for C5: an out-of-range duration 0.25 is pulled up to 0.5 and
an out-of-range calibration 3 is pulled down to 2. -/
theorem clamp_inputs_witness :
    clampQ (1/4) (1/2) 10 = 1/2 ∧ clampQ 3 (1/2) 2 = 2 := by
  obtain ⟨_, h2, _, _, _, _, h7, _⟩ := clamp_inputs (1/4) 3
  exact ⟨h2 (by norm_num), h7 (by norm_num)⟩

/-! ## C3: the tension calculator -/

theorem tension_example_eq :
    tensionN 7850 0.002 0.3 400 1 = 452.16 * Real.pi ∧
    tensionKgf 7850 0.002 0.3 400 1 = 452.16 * Real.pi / 9.80665 := by
  constructor
  · unfold tensionN area; ring
  · unfold tensionKgf tensionN area; ring

/-- C3 counterexample: at density 7850, diameter 2 mm, length 0.3 m,
frequency 400 Hz, calibration 1, the computed tension is more than 0.5 N
away from the claimed 1421.6 N, and the kgf value more than 0.1 away from
the claimed 144.97 (the true values are 452.16·π ≈ 1420.50 N ≈ 144.851 kgf). -/
theorem tension_example_counterexample :
    (1/2 : ℝ) < |tensionN 7850 0.002 0.3 400 1 - 1421.6| ∧
    (1/10 : ℝ) < |tensionKgf 7850 0.002 0.3 400 1 - 144.97| := by
  obtain ⟨hT, hK⟩ := tension_example_eq
  have h1 := Real.pi_gt_d6
  have h2 := Real.pi_lt_d6
  have hTlo : (1420.50 : ℝ) < 452.16 * Real.pi := by nlinarith
  have hThi : 452.16 * Real.pi < 1420.51 := by nlinarith
  have hKlo : (144.845 : ℝ) < 452.16 * Real.pi / 9.80665 := by
    rw [lt_div_iff₀ (by norm_num)]; nlinarith
  have hKhi : 452.16 * Real.pi / 9.80665 < 144.856 := by
    rw [div_lt_iff₀ (by norm_num)]; nlinarith
  constructor
  · rw [hT, abs_of_neg (by linarith)]
    linarith
  · rw [hK, abs_of_neg (by linarith)]
    linarith

/-- C3 amended: the tension calculator computes
`area = π * (diameter / 2)²`, `tensionN = density * area * (2 * length *
frequency)² * calibration`, and `tensionKgf = tensionN / 9.80665`; at
density 7850, diameter 2 mm, length 0.3 m, frequency 400 Hz and
calibration 1, the tension is approximately 1420.5 N and approximately
144.851 kgf (not the 1421.6 N / 144.97 kgf of the claim). -/
theorem tension_calculator (ρ D L f c : ℝ) :
    tensionN ρ D L f c = ρ * (Real.pi * (D / 2) ^ 2) * (2 * L * f) ^ 2 * c ∧
    tensionKgf ρ D L f c = tensionN ρ D L f c / 9.80665 ∧
    |tensionN 7850 0.002 0.3 400 1 - 1420.5| < 1/100 ∧
    |tensionKgf 7850 0.002 0.3 400 1 - 144.851| < 1/100 := by
  obtain ⟨hT, hK⟩ := tension_example_eq
  have h1 := Real.pi_gt_d6
  have h2 := Real.pi_lt_d6
  have hTlo : (1420.50 : ℝ) < 452.16 * Real.pi := by nlinarith
  have hThi : 452.16 * Real.pi < 1420.51 := by nlinarith
  have hKlo : (144.845 : ℝ) < 452.16 * Real.pi / 9.80665 := by
    rw [lt_div_iff₀ (by norm_num)]; nlinarith
  have hKhi : 452.16 * Real.pi / 9.80665 < 144.856 := by
    rw [div_lt_iff₀ (by norm_num)]; nlinarith
  refine ⟨rfl, rfl, ?_, ?_⟩
  · rw [hT, abs_lt]
    constructor <;> linarith
  · rw [hK, abs_lt]
    constructor <;> linarith

/-! ## C8: resource release on exit paths -/

/-- Resource state of the capture machinery: whether an unclosed
`AudioContext` exists, whether an unstopped `MediaStream` exists, and
whether the module-level `analyser` handle is set. -/
structure ResState where
  ctxOpen : Bool
  streamOpen : Bool
  analyserSet : Bool
deriving DecidableEq

/-- Exit paths of the measure click handler: normal success, the
insufficient-signal return, a `getUserMedia` rejection propagating out of
`initMic`, and the `getFrequency` failure when `analyser` is null. -/
inductive SessionExit where
  | success : AggResult → SessionExit
  | noSignal : SessionExit
  | micError : SessionExit
  | analyserError : SessionExit
deriving DecidableEq

/-- The state in which every capture resource is released and every module
handle cleared. -/
def allReleased : ResState := ⟨false, false, false⟩

/-- The tail of the click handler after collection: both the
insufficient-signal branch and the success branch stop the media tracks,
close the audio context and null the module handles. -/
def finishSession (dur : ℚ) (est : ℕ → ℚ) : SessionExit × ResState :=
  if (goodOf dur est).length < 3 then (SessionExit.noSignal, allReleased)
  else (SessionExit.success (aggregate (goodOf dur est)), allReleased)

/-- The measure click handler with resource tracking.  `initMic` creates
the `AudioContext` before awaiting `getUserMedia`; a rejection there
propagates out of the handler (no try/finally exists), leaving the
context open.  A pre-existing context skips acquisition, and a null
`analyser` then makes `getFrequency` throw with the state unchanged. -/
def runHandler (micOk : Bool) (st : ResState) (dur : ℚ) (est : ℕ → ℚ) :
    SessionExit × ResState :=
  if st.ctxOpen then
    if st.analyserSet then finishSession dur est
    else (SessionExit.analyserError, st)
  else if micOk then finishSession dur est
  else (SessionExit.micError, ⟨true, st.streamOpen, st.analyserSet⟩)

/-- C8 counterexample: when `getUserMedia` rejects (permission denied, no
device), the handler exits on an error path with the freshly created
audio context still open — the claim that every exit path releases the
capture resources is false of the code, which has no try/finally. -/
theorem mic_error_leaks_context :
    (runHandler false allReleased 3 (fun _ => 0)).1 = SessionExit.micError ∧
    (runHandler false allReleased 3 (fun _ => 0)).2.ctxOpen = true :=
  ⟨rfl, rfl⟩

/-- C8 amended: on the two completion paths the code actually has —
successful measurement and the insufficient-signal return — the media
tracks are stopped, the audio context is closed and the module handles
are cleared; in particular a session that acquires the microphone
successfully from a released state always ends fully released.  Error
exits (device acquisition failure, null analyser) do not release. -/
theorem release_on_completion_paths (micOk : Bool) (st : ResState) (dur : ℚ)
    (est : ℕ → ℚ) :
    ((runHandler micOk st dur est).1 = SessionExit.noSignal ∨
      (∃ r, (runHandler micOk st dur est).1 = SessionExit.success r) →
      (runHandler micOk st dur est).2 = allReleased) ∧
    (micOk = true → st = allReleased →
      (runHandler micOk st dur est).2 = allReleased) := by
  have hfin : (finishSession dur est).2 = allReleased := by
    unfold finishSession; split <;> rfl
  constructor
  · intro hnormal
    unfold runHandler at hnormal ⊢
    split_ifs at hnormal ⊢ <;> first | exact hfin | simp_all
  · intro hm hst
    subst hm
    rw [hst]
    unfold runHandler
    simpa [allReleased] using hfin

/-- Witness for C8 amended: a session from the released state with the
microphone granted ends with everything released. -/
theorem release_on_completion_paths_witness :
    (runHandler true allReleased 3 (fun _ => 0)).2 = allReleased :=
  (release_on_completion_paths true allReleased 3 (fun _ => 0)).2 rfl rfl

end SpokeTension
